import Mathlib

/-!
Shallow embedding of the decoration engine of `sctk-adwaita` (`src/lib.rs`).

Machine integers are modelled as `Nat`/`Int` (with explicit two's-complement
wrapping where `i32` overflow matters), and `f64` pointer coordinates as `ℚ`.
The constants `BORDER_SIZE` and `HEADER_SIZE` live in the `theme` module,
which is not part of the sources; every definition below takes them as
explicit parameters, and the theorems quantify over them.
-/

namespace SctkAdwaita

/-- Button identity, from `buttons::ButtonKind`. -/
inductive ButtonKind
  | Close
  | Maximize
  | Minimize
deriving DecidableEq, Repr

/-- The semantic pointer location, from `Location` in `src/lib.rs`. -/
inductive Location
  | None
  | Head
  | Top
  | TopRight
  | Right
  | BottomRight
  | Bottom
  | BottomLeft
  | Left
  | TopLeft
  | Button (kind : ButtonKind)
deriving DecidableEq, Repr

/-- A button rectangle in device pixels (position and size), standing for the
per-button geometry computed by the button layout. -/
structure ButtonRect where
  x : ℚ
  y : ℚ
  w : ℚ
  h : ℚ
deriving DecidableEq, Repr

/-- Point-in-rectangle test for a button rectangle. -/
def ButtonRect.contains (r : ButtonRect) (px py : ℚ) : Bool :=
  decide (r.x ≤ px) && decide (px ≤ r.x + r.w) &&
  decide (r.y ≤ py) && decide (py ≤ r.y + r.h)

/-- The three button slots of `buttons::Buttons` (close, maximize, minimize). -/
structure Buttons where
  close : ButtonRect
  maximize : ButtonRect
  minimize : ButtonRect
deriving DecidableEq, Repr

/-- Modelled from the spec: `Buttons::find_button` lives in the `buttons`
module, which is not part of the sources. Per the spec's `hit_test`, it
returns `Button(kind)` for the first rectangle, in Close, Maximize, Minimize
order, containing the point, and `Head` otherwise. -/
def Buttons.find_button (b : Buttons) (x y : ℚ) : Location :=
  if b.close.contains x y then Location.Button ButtonKind.Close
  else if b.maximize.contains x y then Location.Button ButtonKind.Maximize
  else if b.minimize.contains x y then Location.Button ButtonKind.Minimize
  else Location.Head

/-- `precise_location` from `src/lib.rs`: refine the previous location from
the pointer position. `BORDER_SIZE` is the border thickness constant and
`width` the window width, both `u32`; `x, y` are the `f64` pointer
coordinates. -/
def precise_location (BORDER_SIZE : ℕ) (buttons : Buttons) (old : Location)
    (width : ℕ) (x y : ℚ) : Location :=
  match old with
  | Location.Head | Location.Button _ | Location.Top
  | Location.TopLeft | Location.TopRight =>
    match buttons.find_button x y with
    | Location.Head =>
      if y ≤ (BORDER_SIZE : ℚ) then
        if x ≤ (BORDER_SIZE : ℚ) then Location.TopLeft
        else if x ≥ ((width : ℚ) + (BORDER_SIZE : ℚ)) then Location.TopRight
        else Location.Top
      else Location.Head
    | other => other
  | Location.Bottom | Location.BottomLeft | Location.BottomRight =>
    if x ≤ (BORDER_SIZE : ℚ) then Location.BottomLeft
    else if x ≥ ((width : ℚ) + (BORDER_SIZE : ℚ)) then Location.BottomRight
    else Location.Bottom
  | other => other

/-- Activation state, from `smithay_client_toolkit::window::WindowState`. -/
inductive WindowState
  | Active
  | Inactive
deriving DecidableEq, Repr

/-- Window state flags delivered by the compositor, from
`smithay_client_toolkit::window::State`. -/
inductive State
  | Maximized
  | Fullscreen
  | Resizing
  | Activated
  | TiledLeft
  | TiledRight
  | TiledTop
  | TiledBottom
deriving DecidableEq, Repr

/-- The mutable window state tracked by the frame: the fields of
`AdwaitaFrame` (`active`, `hidden`) together with the fields of `Inner`
(`size`, `resizable`, `maximized`, `fullscreened`) that the claims are
about. `size` components are `u32`, modelled as `ℕ`. -/
structure FrameState where
  active : WindowState
  hidden : Bool
  size : ℕ × ℕ
  resizable : Bool
  maximized : Bool
  fullscreened : Bool
deriving DecidableEq, Repr

/-- The frame state set up by `AdwaitaFrame::init`: size `(1, 1)`,
resizable, inactive, hidden, not maximized, not fullscreened. -/
def initFrame : FrameState :=
  { active := WindowState.Inactive
    hidden := true
    size := (1, 1)
    resizable := true
    maximized := false
    fullscreened := false }

/-- `AdwaitaFrame::set_states` from `src/lib.rs`: recompute the activation,
maximized and fullscreened flags from the delivered flag list, and return
the updated state together with the `need_redraw` result. -/
def set_states (f : FrameState) (states : List State) : FrameState × Bool :=
  let new_active :=
    if states.contains State.Activated then WindowState.Active
    else WindowState.Inactive
  let need_redraw₁ := decide (new_active ≠ f.active)
  let new_maximized := states.contains State.Maximized
  let need_redraw₂ := need_redraw₁ || decide (new_maximized ≠ f.maximized)
  let new_fullscreened := states.contains State.Fullscreen
  let need_redraw₃ := need_redraw₂ || decide (new_fullscreened ≠ f.fullscreened)
  ({ f with
      active := new_active
      maximized := new_maximized
      fullscreened := new_fullscreened },
   need_redraw₃)

/-- `AdwaitaFrame::set_hidden` (the `hidden` field update; surface
creation/teardown is protocol plumbing outside the state model). -/
def set_hidden (f : FrameState) (hidden : Bool) : FrameState :=
  { f with hidden := hidden }

/-- `AdwaitaFrame::set_resizable`. -/
def set_resizable (f : FrameState) (resizable : Bool) : FrameState :=
  { f with resizable := resizable }

/-- `AdwaitaFrame::resize`: stores the new size verbatim (no clamping). -/
def resize (f : FrameState) (newsize : ℕ × ℕ) : FrameState :=
  { f with size := newsize }

/-- The externally invoked frame operations that mutate the state. -/
inductive FrameOp
  | opSetStates (states : List State)
  | opSetHidden (hidden : Bool)
  | opSetResizable (resizable : Bool)
  | opResize (newsize : ℕ × ℕ)
deriving Repr

/-- Apply one frame operation to the state. -/
def applyOp (f : FrameState) (op : FrameOp) : FrameState :=
  match op with
  | FrameOp.opSetStates states => (set_states f states).1
  | FrameOp.opSetHidden hidden => set_hidden f hidden
  | FrameOp.opSetResizable resizable => set_resizable f resizable
  | FrameOp.opResize newsize => resize f newsize

/-- The state reached from `initFrame` after a sequence of operations. -/
def runOps (ops : List FrameOp) : FrameState :=
  ops.foldl applyOp initFrame

/-- Two's-complement wrap of an integer into the `i32` range, for the
release-mode semantics of Rust `i32` arithmetic. -/
def wrap32 (n : Int) : Int :=
  (n + 2 ^ 31) % 2 ^ 32 - 2 ^ 31

/-- `AdwaitaFrame::subtract_borders` from `src/lib.rs` (arguments are
`i32`). `HEADER_SIZE` is the `u32` header-height constant; `HEADER_SIZE as
i32` is its two's-complement reinterpretation. -/
def subtract_borders (HEADER_SIZE : ℕ) (f : FrameState) (width height : Int) :
    Int × Int :=
  if f.hidden || f.fullscreened then (width, height)
  else (width, wrap32 (height - wrap32 HEADER_SIZE))

/-- `AdwaitaFrame::add_borders` from `src/lib.rs`. -/
def add_borders (HEADER_SIZE : ℕ) (f : FrameState) (width height : Int) :
    Int × Int :=
  if f.hidden || f.fullscreened then (width, height)
  else (width, wrap32 (height + wrap32 HEADER_SIZE))

/-- `AdwaitaFrame::location` from `src/lib.rs`. -/
def location (HEADER_SIZE : ℕ) (f : FrameState) : Int × Int :=
  if f.hidden || f.fullscreened then (0, 0)
  else (0, -(wrap32 HEADER_SIZE))

/-- Per-redraw success/failure of the four `pool.buffer` allocations
(header, bottom, left, right), an input to `AdwaitaFrame::redraw`. -/
structure AllocOracle where
  header : Bool
  bottom : Bool
  left : Bool
  right : Bool
deriving DecidableEq, Repr

/-- The observable effect of one `AdwaitaFrame::redraw` call: which
teardown calls were made and which regions got a buffer drawn, attached
and committed. -/
structure RedrawEffect where
  hidDecorations : Bool
  headerCommitted : Bool
  hidBorders : Bool
  bottomCommitted : Bool
  leftCommitted : Bool
  rightCommitted : Bool
deriving DecidableEq, Repr

/-- What one `draw_buttons` call painted into the header pixmap. -/
structure DrawTrace where
  headerFillDrawn : Bool
  separatorDrawn : Bool
  closeDrawn : Bool
  maximizeDrawn : Bool
  minimizeDrawn : Bool
deriving DecidableEq, Repr

/-- `draw_buttons` from `src/lib.rs`. Returns `none` exactly where the
source panics on an `unwrap`: `Pixmap::new(w, h)` is `None` iff `w = 0` or
`h = 0`, and `Rect::from_xywh` for the separator line is `None` iff its
width or height is not positive (coordinates here are rationals, so the
non-finite case cannot arise; `rounded_headerbar`'s `PathBuilder::finish`
always succeeds on its fixed non-empty contour). The scale is the `u32`
header scale the caller casts to `f32`. Each button is drawn only when its
x-position exceeds the left margin `BORDER_SIZE * scale`; the glyph
painting itself lives in the `buttons` module, outside the sources, and
only the draw/skip decision is modelled. -/
def draw_buttons (BORDER_SIZE : ℕ) (w h : ℕ) (scale : ℕ) (buttons : Buttons) :
    Option DrawTrace :=
  let border_size : ℚ := (BORDER_SIZE : ℚ) * (scale : ℚ)
  let margin_left : ℚ := border_size
  if w = 0 ∨ h = 0 then none
  else
    let wq : ℚ := (w : ℚ)
    let hq : ℚ := (h : ℚ)
    let margin_left_inner : ℚ := margin_left - 1
    let w_inner : ℚ := wq - margin_left_inner * 2
    if w_inner ≤ 0 ∨ hq ≤ 0 then none
    else
      some
        { headerFillDrawn := true
          separatorDrawn := true
          closeDrawn := decide (buttons.close.x > margin_left)
          maximizeDrawn := decide (buttons.maximize.x > margin_left)
          minimizeDrawn := decide (buttons.minimize.x > margin_left) }

/-- The drawing body of the bottom-border block of `AdwaitaFrame::redraw`
(`src/lib.rs`), run only after its allocation succeeded. Returns `none`
exactly where the source panics on an `unwrap`: `Pixmap::new(w, h)` with
`w = (width + 2 * BORDER_SIZE) * bottom_scale` and
`h = BORDER_SIZE * bottom_scale` is `None` iff a dimension is zero, and
the separator `Rect::from_xywh` (width
`w - 2 * BORDER_SIZE * bottom_scale + 2`, height 1) is `None` iff an
extent is not positive. -/
def draw_bottom_border (BORDER_SIZE width bottom_scale : ℕ) : Option Unit :=
  let w := (width + 2 * BORDER_SIZE) * bottom_scale
  let h := BORDER_SIZE * bottom_scale
  if w = 0 ∨ h = 0 then none
  else if (w : ℚ) - (BORDER_SIZE : ℚ) * 2 * (bottom_scale : ℚ) + 2 ≤ 0 ∨
      (1 : ℚ) ≤ 0 then none
  else some ()

/-- The drawing body of the left-border block of `AdwaitaFrame::redraw`
(`src/lib.rs`): `Pixmap::new(w, h)` with `w = BORDER_SIZE * left_scale`
and `h = height * left_scale` is `None` iff a dimension is zero, and the
accent `Rect::from_xywh(w - 1, 0, w, h)` is `None` iff an extent is not
positive. -/
def draw_left_border (BORDER_SIZE height left_scale : ℕ) : Option Unit :=
  let w := BORDER_SIZE * left_scale
  let h := height * left_scale
  if w = 0 ∨ h = 0 then none
  else if (w : ℚ) ≤ 0 ∨ (h : ℚ) ≤ 0 then none
  else some ()

/-- The drawing body of the right-border block of `AdwaitaFrame::redraw`
(`src/lib.rs`): `Pixmap::new(w, h)` with `w = BORDER_SIZE * right_scale`
and `h = height * right_scale` is `None` iff a dimension is zero, and the
accent `Rect::from_xywh(0, 0, 1, h)` is `None` iff an extent is not
positive. -/
def draw_right_border (BORDER_SIZE height right_scale : ℕ) : Option Unit :=
  let w := BORDER_SIZE * right_scale
  let h := height * right_scale
  if w = 0 ∨ h = 0 then none
  else if (1 : ℚ) ≤ 0 ∨ (h : ℚ) ≤ 0 then none
  else some ()

/-- The control flow of `AdwaitaFrame::redraw` from `src/lib.rs`, with the
panic sites of each region's drawing body exposed: `none` is a panic
(`unwrap` failure) aborting the redraw, `some` is a normal return with the
trace of commits. If hidden or fullscreened, hide all decorations and
return; otherwise, when `parts.decoration()` is present (`dec`), run the
header block whenever its allocation succeeds (drawing via
`draw_buttons`); if maximized, hide the borders and return; otherwise run
the bottom, left and right blocks, each only when its own allocation
succeeds (`if let Ok(..)`). The header buffer dimensions come from
`Buttons::scaled_size`, which lives in the absent `buttons` module;
modelled from the spec as the decorated width times the header scale, and
the header height (`HEADER_SIZE`) to which the source adds
`BORDER_SIZE * header_scale`. -/
def redraw (BORDER_SIZE HEADER_SIZE : ℕ) (f : FrameState) (dec : Bool)
    (alloc : AllocOracle) (buttons : Buttons)
    (header_scale bottom_scale left_scale right_scale : ℕ) :
    Option RedrawEffect :=
  if f.hidden || f.fullscreened then
    some { hidDecorations := true
           headerCommitted := false
           hidBorders := false
           bottomCommitted := false
           leftCommitted := false
           rightCommitted := false }
  else if dec then
    let width := f.size.1
    let height := f.size.2
    let headerStep : Option Bool :=
      if alloc.header then
        (draw_buttons BORDER_SIZE ((width + 2 * BORDER_SIZE) * header_scale)
          ((HEADER_SIZE + BORDER_SIZE) * header_scale) header_scale
          buttons).map fun _ => true
      else some false
    match headerStep with
    | none => none
    | some headerCommitted =>
      if f.maximized then
        some { hidDecorations := false
               headerCommitted := headerCommitted
               hidBorders := true
               bottomCommitted := false
               leftCommitted := false
               rightCommitted := false }
      else
        let bottomStep : Option Bool :=
          if alloc.bottom then
            (draw_bottom_border BORDER_SIZE width bottom_scale).map fun _ => true
          else some false
        match bottomStep with
        | none => none
        | some bottomCommitted =>
          let leftStep : Option Bool :=
            if alloc.left then
              (draw_left_border BORDER_SIZE height left_scale).map fun _ => true
            else some false
          match leftStep with
          | none => none
          | some leftCommitted =>
            let rightStep : Option Bool :=
              if alloc.right then
                (draw_right_border BORDER_SIZE height right_scale).map
                  fun _ => true
              else some false
            match rightStep with
            | none => none
            | some rightCommitted =>
              some { hidDecorations := false
                     headerCommitted := headerCommitted
                     hidBorders := false
                     bottomCommitted := bottomCommitted
                     leftCommitted := leftCommitted
                     rightCommitted := rightCommitted }
  else
    some { hidDecorations := false
           headerCommitted := false
           hidBorders := false
           bottomCommitted := false
           leftCommitted := false
           rightCommitted := false }

/-- A concrete layout with all three buttons near the right edge of a
400-wide decoration, for evaluating the classifier away from the buttons. -/
def demoButtons : Buttons :=
  { close := { x := 370, y := 5, w := 20, h := 20 }
    maximize := { x := 340, y := 5, w := 20, h := 20 }
    minimize := { x := 310, y := 5, w := 20, h := 20 } }

/-- C1: for previous locations in the head family (Head, Button, Top,
TopLeft, TopRight), `precise_location` delegates to the button hit-test;
a Button result is returned unchanged; a Head result with `y` within the
top border thickness is refined to TopLeft when `x` is within the left
border thickness, to TopRight when `x` is at or beyond `width +
BORDER_SIZE`, and to Top otherwise; with `y` beyond the top border
thickness the result stays Head. -/
theorem precise_location_head_family (BORDER_SIZE : ℕ) (buttons : Buttons)
    (old : Location) (width : ℕ) (x y : ℚ)
    (hold : old = Location.Head ∨ (∃ k, old = Location.Button k) ∨
      old = Location.Top ∨ old = Location.TopLeft ∨ old = Location.TopRight) :
    (∀ k, buttons.find_button x y = Location.Button k →
      precise_location BORDER_SIZE buttons old width x y = Location.Button k) ∧
    (buttons.find_button x y = Location.Head →
      (y ≤ (BORDER_SIZE : ℚ) → x ≤ (BORDER_SIZE : ℚ) →
        precise_location BORDER_SIZE buttons old width x y = Location.TopLeft) ∧
      (y ≤ (BORDER_SIZE : ℚ) → ¬x ≤ (BORDER_SIZE : ℚ) →
          (width : ℚ) + (BORDER_SIZE : ℚ) ≤ x →
        precise_location BORDER_SIZE buttons old width x y = Location.TopRight) ∧
      (y ≤ (BORDER_SIZE : ℚ) → ¬x ≤ (BORDER_SIZE : ℚ) →
          ¬(width : ℚ) + (BORDER_SIZE : ℚ) ≤ x →
        precise_location BORDER_SIZE buttons old width x y = Location.Top) ∧
      (¬y ≤ (BORDER_SIZE : ℚ) →
        precise_location BORDER_SIZE buttons old width x y = Location.Head)) := by
  have hred : precise_location BORDER_SIZE buttons old width x y =
      (match buttons.find_button x y with
      | Location.Head =>
        if y ≤ (BORDER_SIZE : ℚ) then
          if x ≤ (BORDER_SIZE : ℚ) then Location.TopLeft
          else if x ≥ ((width : ℚ) + (BORDER_SIZE : ℚ)) then Location.TopRight
          else Location.Top
        else Location.Head
      | other => other) := by
    rcases hold with h | ⟨k, h⟩ | h | h | h <;> subst h <;> rfl
  constructor
  · intro k hk
    rw [hred, hk]
  · intro hfb
    rw [hred, hfb]
    refine ⟨?_, ?_, ?_, ?_⟩
    · intro hy hx
      simp [hy, hx]
    · intro hy hx hx2
      simp [hy, hx, ge_iff_le, hx2]
    · intro hy hx hx2
      simp [hy, hx, ge_iff_le, hx2]
    · intro hy
      simp [hy]

/-- Witness for C1 at concrete inputs: with border thickness 10 and the
demo layout, a pointer at (5, 5) previously over the head is classified
TopLeft, and one at (415, 5) is classified TopRight. -/
theorem precise_location_head_family_witness :
    precise_location 10 demoButtons Location.Head 400 5 5 = Location.TopLeft ∧
    precise_location 10 demoButtons Location.Head 400 415 5 = Location.TopRight := by
  have h₁ := precise_location_head_family 10 demoButtons Location.Head 400 5 5
    (Or.inl rfl)
  have h₂ := precise_location_head_family 10 demoButtons Location.Head 400 415 5
    (Or.inl rfl)
  exact ⟨(h₁.2 (by decide)).1 (by norm_num) (by norm_num),
    (h₂.2 (by norm_num [Buttons.find_button, ButtonRect.contains,
      demoButtons])).2.1 (by norm_num) (by norm_num) (by norm_num)⟩

/-- C2: for previous locations in the bottom family (Bottom, BottomLeft,
BottomRight), `precise_location` reclassifies purely by `x`: BottomLeft
when `x` is within the left border thickness, BottomRight when `x` is at
or beyond `width + BORDER_SIZE`, Bottom otherwise; the result never
depends on `y`. -/
theorem precise_location_bottom_family (BORDER_SIZE : ℕ) (buttons : Buttons)
    (old : Location) (width : ℕ) (x y : ℚ)
    (hold : old = Location.Bottom ∨ old = Location.BottomLeft ∨
      old = Location.BottomRight) :
    (x ≤ (BORDER_SIZE : ℚ) →
      precise_location BORDER_SIZE buttons old width x y = Location.BottomLeft) ∧
    (¬x ≤ (BORDER_SIZE : ℚ) → (width : ℚ) + (BORDER_SIZE : ℚ) ≤ x →
      precise_location BORDER_SIZE buttons old width x y = Location.BottomRight) ∧
    (¬x ≤ (BORDER_SIZE : ℚ) → ¬(width : ℚ) + (BORDER_SIZE : ℚ) ≤ x →
      precise_location BORDER_SIZE buttons old width x y = Location.Bottom) ∧
    (∀ y₁ y₂ : ℚ,
      precise_location BORDER_SIZE buttons old width x y₁ =
      precise_location BORDER_SIZE buttons old width x y₂) := by
  have hred : ∀ y' : ℚ, precise_location BORDER_SIZE buttons old width x y' =
      (if x ≤ (BORDER_SIZE : ℚ) then Location.BottomLeft
      else if x ≥ ((width : ℚ) + (BORDER_SIZE : ℚ)) then Location.BottomRight
      else Location.Bottom) := by
    intro y'
    rcases hold with h | h | h <;> subst h <;> rfl
  refine ⟨?_, ?_, ?_, ?_⟩
  · intro hx
    rw [hred y]
    simp [hx]
  · intro hx hx2
    rw [hred y]
    simp [hx, ge_iff_le, hx2]
  · intro hx hx2
    rw [hred y]
    simp [hx, ge_iff_le, hx2]
  · intro y₁ y₂
    rw [hred y₁, hred y₂]

/-- Witness for C2 at concrete inputs: with border thickness 10 and
previous location Bottom, a pointer at x = 3 is BottomLeft whatever `y`
is, and x = 200 over a 400-wide window is Bottom. -/
theorem precise_location_bottom_family_witness :
    precise_location 10 demoButtons Location.Bottom 400 3 1000 =
      Location.BottomLeft ∧
    precise_location 10 demoButtons Location.Bottom 400 200 1000 =
      Location.Bottom ∧
    precise_location 10 demoButtons Location.Bottom 400 3 1000 =
      precise_location 10 demoButtons Location.Bottom 400 3 (-50) := by
  have h₁ := precise_location_bottom_family 10 demoButtons Location.Bottom 400 3
    1000 (Or.inl rfl)
  have h₂ := precise_location_bottom_family 10 demoButtons Location.Bottom 400 200
    1000 (Or.inl rfl)
  exact ⟨h₁.1 (by decide), h₂.2.2.1 (by norm_num) (by norm_num),
    h₁.2.2.2 1000 (-50)⟩

/-- C3: a previous location of Left, Right or None is returned unchanged
by `precise_location`, for every width and pointer position. -/
theorem precise_location_unchanged (BORDER_SIZE : ℕ) (buttons : Buttons)
    (old : Location) (width : ℕ) (x y : ℚ)
    (hold : old = Location.Left ∨ old = Location.Right ∨ old = Location.None) :
    precise_location BORDER_SIZE buttons old width x y = old := by
  rcases hold with h | h | h <;> subst h <;> rfl

/-- Witness for C3 at concrete inputs: previous location Left stays Left
even for a pointer deep inside the head area. -/
theorem precise_location_unchanged_witness :
    precise_location 10 demoButtons Location.Left 400 200 5 = Location.Left := by
  exact precise_location_unchanged 10 demoButtons Location.Left 400 200 5
    (Or.inl rfl)

/-- C4: `set_states` recomputes the activation, maximized and fullscreened
flags from the delivered flag list (leaving the rest of the state alone),
and reports a redraw exactly when at least one of the three flags actually
changed value. -/
theorem set_states_updates_and_need_redraw (f : FrameState)
    (states : List State) :
    (set_states f states).1.active =
      (if states.contains State.Activated then WindowState.Active
      else WindowState.Inactive) ∧
    (set_states f states).1.maximized = states.contains State.Maximized ∧
    (set_states f states).1.fullscreened = states.contains State.Fullscreen ∧
    (set_states f states).1.hidden = f.hidden ∧
    (set_states f states).1.size = f.size ∧
    (set_states f states).1.resizable = f.resizable ∧
    ((set_states f states).2 = true ↔
      ((set_states f states).1.active ≠ f.active ∨
       (set_states f states).1.maximized ≠ f.maximized ∨
       (set_states f states).1.fullscreened ≠ f.fullscreened)) := by
  refine ⟨rfl, rfl, rfl, rfl, rfl, rfl, ?_⟩
  simp only [set_states, Bool.or_eq_true, decide_eq_true_eq]
  tauto

/-- Two's-complement wrapping is the identity on in-range values. -/
theorem wrap32_eq_self {n : Int} (h₁ : -(2 ^ 31) ≤ n) (h₂ : n < 2 ^ 31) :
    wrap32 n = n := by
  unfold wrap32
  omega

/-- Wrapping commutes with a later addition. -/
theorem wrap32_add_left (a b : Int) : wrap32 (wrap32 a + b) = wrap32 (a + b) := by
  unfold wrap32
  omega

/-- Wrapping commutes with a later subtraction. -/
theorem wrap32_sub_left (a b : Int) : wrap32 (wrap32 a - b) = wrap32 (a - b) := by
  unfold wrap32
  omega

/-- A visible (non-hidden, non-fullscreened) demo frame. -/
def demoVisibleFrame : FrameState :=
  { initFrame with hidden := false }

/-- C5: when the frame is hidden or fullscreened, `redraw` hides all
decoration regions and commits no buffer, and `subtract_borders`,
`add_borders` and `location` are the identity and origin; when the frame
is neither hidden nor fullscreened, `subtract_borders` removes exactly the
header height and `location` is `(0, -HEADER_SIZE)`. -/
theorem hidden_fullscreen_geometry (BORDER_SIZE HEADER_SIZE : ℕ)
    (f : FrameState) (dec : Bool) (alloc : AllocOracle) (buttons : Buttons)
    (header_scale bottom_scale left_scale right_scale : ℕ) (w h : Int)
    (hH : (HEADER_SIZE : Int) < 2 ^ 31)
    (hr₁ : -(2 ^ 31) ≤ h - (HEADER_SIZE : Int))
    (hr₂ : h - (HEADER_SIZE : Int) < 2 ^ 31) :
    ((f.hidden || f.fullscreened) = true →
      redraw BORDER_SIZE HEADER_SIZE f dec alloc buttons header_scale
          bottom_scale left_scale right_scale =
        some { hidDecorations := true, headerCommitted := false,
               hidBorders := false, bottomCommitted := false,
               leftCommitted := false, rightCommitted := false } ∧
      subtract_borders HEADER_SIZE f w h = (w, h) ∧
      add_borders HEADER_SIZE f w h = (w, h) ∧
      location HEADER_SIZE f = (0, 0)) ∧
    (f.hidden = false → f.fullscreened = false →
      subtract_borders HEADER_SIZE f w h = (w, h - (HEADER_SIZE : Int)) ∧
      location HEADER_SIZE f = (0, -(HEADER_SIZE : Int))) := by
  have hcast : wrap32 (HEADER_SIZE : Int) = (HEADER_SIZE : Int) :=
    wrap32_eq_self (by omega) hH
  constructor
  · intro hvis
    exact ⟨by simp [redraw, hvis], by simp [subtract_borders, hvis],
      by simp [add_borders, hvis], by simp [location, hvis]⟩
  · intro hh hf
    have hvis : (f.hidden || f.fullscreened) = false := by simp [hh, hf]
    exact ⟨by simp [subtract_borders, hvis, hcast, wrap32_eq_self hr₁ hr₂],
      by simp [location, hvis, hcast]⟩

/-- Witness for C5 at concrete inputs: header height 35, the hidden
initial frame versus a visible one, content size 400 × 340. -/
theorem hidden_fullscreen_geometry_witness :
    subtract_borders 35 initFrame 400 340 = (400, 340) ∧
    add_borders 35 initFrame 400 340 = (400, 340) ∧
    location 35 initFrame = (0, 0) ∧
    redraw 10 35 initFrame true ⟨true, true, true, true⟩ demoButtons 1 1 1 1 =
      some ⟨true, false, false, false, false, false⟩ ∧
    subtract_borders 35 demoVisibleFrame 400 340 = (400, 305) ∧
    location 35 demoVisibleFrame = (0, -35) := by
  have h₁ := hidden_fullscreen_geometry 10 35 initFrame true
    ⟨true, true, true, true⟩ demoButtons 1 1 1 1
    400 340 (by decide) (by decide) (by decide)
  have h₂ := hidden_fullscreen_geometry 10 35 demoVisibleFrame true
    ⟨true, true, true, true⟩ demoButtons 1 1 1 1
    400 340 (by decide) (by decide) (by decide)
  obtain ⟨hr, hs, ha, hl⟩ := h₁.1 rfl
  obtain ⟨hs₂, hl₂⟩ := h₂.2 rfl rfl
  refine ⟨hs, ha, hl, hr, ?_, ?_⟩
  · rw [hs₂]
    norm_num
  · rw [hl₂]
    norm_num

/-- A visible maximized demo frame. -/
def demoMaximizedFrame : FrameState :=
  { initFrame with hidden := false, maximized := true }

/-- `draw_buttons` returns normally (no `unwrap` fires) and its full trace
whenever the buffer has the shape `redraw` requests for it: width
`(winW + 2 * BORDER_SIZE) * scale` for a window width `winW ≥ 1`, a
positive height and a positive scale. The separator rectangle width then
equals `winW * scale + 2 > 0`. -/
theorem draw_buttons_total (BORDER_SIZE w h scale winW : ℕ) (buttons : Buttons)
    (hs : 1 ≤ scale) (hh : 1 ≤ h) (hwin : 1 ≤ winW)
    (hw : w = (winW + 2 * BORDER_SIZE) * scale) :
    draw_buttons BORDER_SIZE w h scale buttons =
      some { headerFillDrawn := true
             separatorDrawn := true
             closeDrawn :=
               decide (buttons.close.x > (BORDER_SIZE : ℚ) * (scale : ℚ))
             maximizeDrawn :=
               decide (buttons.maximize.x > (BORDER_SIZE : ℚ) * (scale : ℚ))
             minimizeDrawn :=
               decide (buttons.minimize.x > (BORDER_SIZE : ℚ) * (scale : ℚ)) } := by
  have hw0 : w ≠ 0 := by
    subst hw
    exact Nat.mul_ne_zero (by omega) (by omega)
  have hq : (1 : ℚ) ≤ (winW : ℚ) * (scale : ℚ) := by
    have h₁ : 1 ≤ winW * scale :=
      Nat.one_le_iff_ne_zero.mpr (Nat.mul_ne_zero (by omega) (by omega))
    exact_mod_cast h₁
  have hcond₁ : ¬(w = 0 ∨ h = 0) := by
    push_neg
    exact ⟨hw0, by omega⟩
  have hwq : (w : ℚ) = ((winW : ℚ) + 2 * (BORDER_SIZE : ℚ)) * (scale : ℚ) := by
    subst hw
    push_cast
    ring
  have hcond₂ :
      ¬((w : ℚ) - ((BORDER_SIZE : ℚ) * (scale : ℚ) - 1) * 2 ≤ 0 ∨
        (h : ℚ) ≤ 0) := by
    push_neg
    constructor
    · rw [hwq]
      nlinarith [hq]
    · have hhq : (1 : ℚ) ≤ (h : ℚ) := by exact_mod_cast hh
      linarith
  simp only [draw_buttons]
  rw [if_neg hcond₁, if_neg hcond₂]

/-- C6: on a visible, non-fullscreened, maximized frame whose header
allocation succeeds (and with a non-degenerate header buffer: positive
header scale, window width and header height), `redraw` returns normally,
commits the header buffer, hides the three border regions, and commits no
border buffer. -/
theorem redraw_maximized_borders_only (BORDER_SIZE HEADER_SIZE : ℕ)
    (f : FrameState) (alloc : AllocOracle) (buttons : Buttons)
    (header_scale bottom_scale left_scale right_scale : ℕ)
    (hh : f.hidden = false) (hf : f.fullscreened = false)
    (hm : f.maximized = true) (ha : alloc.header = true)
    (hhs : 1 ≤ header_scale) (hwidth : 1 ≤ f.size.1) (hH : 1 ≤ HEADER_SIZE) :
    redraw BORDER_SIZE HEADER_SIZE f true alloc buttons header_scale
        bottom_scale left_scale right_scale =
      some { hidDecorations := false, headerCommitted := true,
             hidBorders := true, bottomCommitted := false,
             leftCommitted := false, rightCommitted := false } := by
  have hdb := draw_buttons_total BORDER_SIZE
    ((f.size.1 + 2 * BORDER_SIZE) * header_scale)
    ((HEADER_SIZE + BORDER_SIZE) * header_scale) header_scale f.size.1 buttons
    hhs (Nat.one_le_iff_ne_zero.mpr (Nat.mul_ne_zero (by omega) (by omega)))
    hwidth rfl
  simp [redraw, hh, hf, hm, ha, hdb]

/-- Witness for C6 on the concrete maximized frame with every allocation
succeeding. -/
theorem redraw_maximized_borders_only_witness :
    redraw 10 35 demoMaximizedFrame true ⟨true, true, true, true⟩ demoButtons
      1 1 1 1 = some ⟨false, true, true, false, false, false⟩ :=
  redraw_maximized_borders_only 10 35 demoMaximizedFrame
    ⟨true, true, true, true⟩ demoButtons 1 1 1 1 rfl rfl rfl rfl
    (by decide) (by decide) (by decide)

/-- C7, evaluated at the failing input: on the visible, non-maximized
frame with stored size `(400, 0)` — reachable, since `resize` stores the
requested size verbatim — `redraw` with every allocation succeeding
aborts (panics): the left-border block's `Pixmap::new(BORDER_SIZE, 0)`
is `None` and the source `unwrap`s it, even though the claim (and the
spec's partial-redraw tolerance) require zero-dimension regions to be
skipped without aborting the other regions. -/
theorem redraw_zero_height_aborts :
    runOps [FrameOp.opSetHidden false, FrameOp.opResize (400, 0)] =
      { demoVisibleFrame with size := (400, 0) } ∧
    redraw 10 35 { demoVisibleFrame with size := (400, 0) } true
      ⟨true, true, true, true⟩ demoButtons 1 1 1 1 = none := by
  constructor
  · decide
  · norm_num [redraw, draw_buttons, draw_bottom_border, draw_left_border,
      demoVisibleFrame, initFrame]

/-- A layout for a degenerately narrow window: every button's computed
x-position lies left of the header's left margin. -/
def narrowButtons : Buttons :=
  { close := { x := -5, y := 5, w := 20, h := 20 }
    maximize := { x := -35, y := 5, w := 20, h := 20 }
    minimize := { x := -65, y := 5, w := 20, h := 20 } }

/-- C8: for a header buffer of the shape `redraw` requests, namely width
`(winW + 2 * BORDER_SIZE) * scale` for a window width `winW ≥ 1`,
`draw_buttons` never panics; the header background fill and the separator
line are always drawn, and every button whose x-position does not exceed
the header's left margin is omitted from drawing. -/
theorem draw_buttons_degenerate_width (BORDER_SIZE w h scale winW : ℕ)
    (buttons : Buttons) (hs : 1 ≤ scale) (hh : 1 ≤ h) (hwin : 1 ≤ winW)
    (hw : w = (winW + 2 * BORDER_SIZE) * scale) :
    ∃ t : DrawTrace, draw_buttons BORDER_SIZE w h scale buttons = some t ∧
      t.headerFillDrawn = true ∧ t.separatorDrawn = true ∧
      (buttons.close.x ≤ (BORDER_SIZE : ℚ) * (scale : ℚ) →
        t.closeDrawn = false) ∧
      (buttons.maximize.x ≤ (BORDER_SIZE : ℚ) * (scale : ℚ) →
        t.maximizeDrawn = false) ∧
      (buttons.minimize.x ≤ (BORDER_SIZE : ℚ) * (scale : ℚ) →
        t.minimizeDrawn = false) := by
  refine ⟨{ headerFillDrawn := true
            separatorDrawn := true
            closeDrawn :=
              decide (buttons.close.x > (BORDER_SIZE : ℚ) * (scale : ℚ))
            maximizeDrawn :=
              decide (buttons.maximize.x > (BORDER_SIZE : ℚ) * (scale : ℚ))
            minimizeDrawn :=
              decide (buttons.minimize.x > (BORDER_SIZE : ℚ) * (scale : ℚ)) },
    draw_buttons_total BORDER_SIZE w h scale winW buttons hs hh hwin hw,
    rfl, rfl, ?_, ?_, ?_⟩
  · intro hx
    exact decide_eq_false (not_lt.mpr hx)
  · intro hx
    exact decide_eq_false (not_lt.mpr hx)
  · intro hx
    exact decide_eq_false (not_lt.mpr hx)

/-- Witness for C8 at concrete inputs: window width 60, border thickness
10, scale 1 (buffer width 80, height 45) with a layout whose three buttons
all fall left of the margin: the render succeeds and draws only the
background fill and separator. -/
theorem draw_buttons_degenerate_width_witness :
    draw_buttons 10 80 45 1 narrowButtons =
      some ⟨true, true, false, false, false⟩ := by
  obtain ⟨t, ht, h₁, h₂, h₃, h₄, h₅⟩ :=
    draw_buttons_degenerate_width 10 80 45 1 60 narrowButtons (by decide)
      (by decide) (by decide) (by decide)
  have hc := h₃ (by norm_num [narrowButtons])
  have hm := h₄ (by norm_num [narrowButtons])
  have hn := h₅ (by norm_num [narrowButtons])
  rw [ht]
  cases t
  simp only at h₁ h₂ hc hm hn
  subst h₁ h₂ hc hm hn
  rfl

/-- Counterexample to C9 as stated: `resize` stores the requested size
verbatim, so the reachable state after `resize((0, 0))` has a width
component of 0, violating the claimed invariant that both components are
always at least 1. -/
theorem size_invariant_counterexample :
    initFrame.size = (1, 1) ∧ initFrame.hidden = true ∧
    ¬1 ≤ (runOps [FrameOp.opResize (0, 0)]).size.1 := by
  decide

/-- Does the operation keep both size components at least 1? Resize
requests are the only operations that touch the size. -/
def resizeOk : FrameOp → Bool
  | FrameOp.opResize sz => decide (1 ≤ sz.1) && decide (1 ≤ sz.2)
  | _ => true

/-- One operation with a well-formed resize request preserves positivity
of both size components. -/
theorem size_pos_applyOp (f : FrameState) (op : FrameOp)
    (hf₁ : 1 ≤ f.size.1) (hf₂ : 1 ≤ f.size.2) (hop : resizeOk op = true) :
    1 ≤ (applyOp f op).size.1 ∧ 1 ≤ (applyOp f op).size.2 := by
  cases op with
  | opSetStates states => exact ⟨hf₁, hf₂⟩
  | opSetHidden hidden => exact ⟨hf₁, hf₂⟩
  | opSetResizable resizable => exact ⟨hf₁, hf₂⟩
  | opResize newsize =>
    simp only [resizeOk, Bool.and_eq_true, decide_eq_true_eq] at hop
    exact hop

/-- Positivity of the size components is preserved along any operation
sequence whose resize requests are well-formed. -/
theorem size_pos_foldl (ops : List FrameOp) :
    ∀ f : FrameState, 1 ≤ f.size.1 → 1 ≤ f.size.2 →
      (∀ op ∈ ops, resizeOk op = true) →
      1 ≤ (ops.foldl applyOp f).size.1 ∧ 1 ≤ (ops.foldl applyOp f).size.2 := by
  induction ops with
  | nil =>
    intro f h₁ h₂ _
    exact ⟨h₁, h₂⟩
  | cons op rest ih =>
    intro f h₁ h₂ hops
    have h := size_pos_applyOp f op h₁ h₂ (hops op (List.mem_cons_self _ _))
    exact ih (applyOp f op) h.1 h.2 fun o ho => hops o (List.mem_cons_of_mem _ ho)

/-- C9 as amended: the frame is created with size `(1, 1)` and
`hidden = true`; since `resize` stores the requested size verbatim, both
components of the size stay at least 1 after any operation sequence in
which every resize request has both components at least 1. -/
theorem size_invariant_amended (ops : List FrameOp)
    (hops : ∀ op ∈ ops, resizeOk op = true) :
    initFrame.size = (1, 1) ∧ initFrame.hidden = true ∧
    1 ≤ (runOps ops).size.1 ∧ 1 ≤ (runOps ops).size.2 := by
  have h := size_pos_foldl ops initFrame (by decide) (by decide) hops
  exact ⟨rfl, rfl, h.1, h.2⟩

/-- Witness for the amended C9 on a concrete operation sequence. -/
theorem size_invariant_amended_witness :
    1 ≤ (runOps [FrameOp.opResize (5, 7), FrameOp.opSetHidden false]).size.1 ∧
    1 ≤ (runOps [FrameOp.opResize (5, 7), FrameOp.opSetHidden false]).size.2 := by
  have h := size_invariant_amended
    [FrameOp.opResize (5, 7), FrameOp.opSetHidden false] (by decide)
  exact ⟨h.2.2.1, h.2.2.2⟩

/-- C10: with the hidden and fullscreened flags unchanged between the two
calls, `subtract_borders` and `add_borders` are mutually inverse on the
`i32` range. -/
theorem borders_roundtrip (HEADER_SIZE : ℕ) (f : FrameState) (w h : Int)
    (h₁ : -(2 ^ 31) ≤ h) (h₂ : h < 2 ^ 31) :
    subtract_borders HEADER_SIZE f (add_borders HEADER_SIZE f w h).1
      (add_borders HEADER_SIZE f w h).2 = (w, h) ∧
    add_borders HEADER_SIZE f (subtract_borders HEADER_SIZE f w h).1
      (subtract_borders HEADER_SIZE f w h).2 = (w, h) := by
  cases hv : (f.hidden || f.fullscreened) with
  | true => simp [add_borders, subtract_borders, hv]
  | false =>
    have key₁ :
        wrap32 (wrap32 (h + wrap32 HEADER_SIZE) - wrap32 HEADER_SIZE) = h := by
      rw [wrap32_sub_left]
      have harith : h + wrap32 HEADER_SIZE - wrap32 HEADER_SIZE = h := by ring
      rw [harith]
      exact wrap32_eq_self h₁ h₂
    have key₂ :
        wrap32 (wrap32 (h - wrap32 HEADER_SIZE) + wrap32 HEADER_SIZE) = h := by
      rw [wrap32_add_left]
      have harith : h - wrap32 HEADER_SIZE + wrap32 HEADER_SIZE = h := by ring
      rw [harith]
      exact wrap32_eq_self h₁ h₂
    simp [add_borders, subtract_borders, hv, key₁, key₂]

/-- Witness for C10 on the visible demo frame at a concrete size. -/
theorem borders_roundtrip_witness :
    subtract_borders 35 demoVisibleFrame
      (add_borders 35 demoVisibleFrame 400 300).1
      (add_borders 35 demoVisibleFrame 400 300).2 = (400, 300) ∧
    add_borders 35 demoVisibleFrame
      (subtract_borders 35 demoVisibleFrame 400 300).1
      (subtract_borders 35 demoVisibleFrame 400 300).2 = (400, 300) :=
  borders_roundtrip 35 demoVisibleFrame 400 300 (by decide) (by decide)

end SctkAdwaita
